import Mathlib

/-!
Verification of the proxyprotocol library (PROXY protocol v1/v2 codec,
connection wrapper and listener policy) against its specification.

Bytes are modelled as `Nat` values below 256, byte strings as `List Nat`.
Streams are byte lists consumed from the front; a parse outcome records the
decoded header together with the unconsumed remainder of the stream, so that
"how many bytes were consumed" is directly observable.  Go slices backed by
an oversized array are modelled by carrying the full backing array together
with the slice length: a two-index slice expression `buf[lo:hi]` is legal
when `lo ≤ hi ≤ cap` and a one-index expression `buf[lo:]` when `lo ≤ len`,
exactly as in the Go specification; an illegal expression is a runtime
panic, which the outcome type records explicitly.
-/

set_option maxRecDepth 100000

namespace ProxyProto

/-- Command values of protocol version 2 (command.go). -/
def CommandLocal : Nat := 0x00

/-- The PROXY command of protocol version 2 (command.go). -/
def CommandProxy : Nat := 0x01

/-- Address family values of protocol version 2 (addrfamily.go). -/
def AddrFamilyUnspec : Nat := 0x00

/-- AF_INET, IPv4 (addrfamily.go). -/
def AddrFamilyInet : Nat := 0x01

/-- AF_INET6, IPv6 (addrfamily.go). -/
def AddrFamilyInet6 : Nat := 0x02

/-- AF_UNIX (addrfamily.go). -/
def AddrFamilyUnix : Nat := 0x03

/-- Transport protocol values of protocol version 2 (protocol.go). -/
def ProtoUnspec : Nat := 0x00

/-- SOCK_STREAM (protocol.go). -/
def ProtoStream : Nat := 0x01

/-- SOCK_DGRAM (protocol.go). -/
def ProtoDGram : Nat := 0x02

/-- A network endpoint, the model of the net.Addr values the library
produces: a TCP or UDP address is an IP byte string plus a port, a
Unix-domain address is a network name ("unix" or "unixgram") plus a path.
A Go nil net.Addr interface value is `Option.none` at use sites. -/
inductive Addr where
  | tcp (ip : List Nat) (port : Int)
  | udp (ip : List Nat) (port : Int)
  | unix (net : String) (name : List Nat)
deriving DecidableEq, Repr

/-- Decoded PROXY protocol version 1 header (headerv1.go).  The family is
the raw token from the wire; IPs are the byte strings produced by the model
of net.ParseIP (16 bytes when set, empty when the Go value is nil). -/
structure HeaderV1 where
  family : List Nat
  sourceIP : List Nat
  destIP : List Nat
  sourcePort : Int
  destPort : Int
deriving DecidableEq, Repr

/-- Decoded PROXY protocol version 2 header (headerv2.go).  Command, family
and protocol are raw byte values; absent addresses are `none`. -/
structure HeaderV2 where
  command : Nat
  family : Nat
  protocol : Nat
  sourceAddr : Option Addr
  destAddr : Option Addr
  trailing : List Nat
deriving DecidableEq, Repr

/-- A decoded header of either version (header.go). -/
inductive Header where
  | v1 (h : HeaderV1)
  | v2 (h : HeaderV2)
deriving DecidableEq, Repr

/-- Outcome of running a parser on a byte stream.
`ok h rest` : success, `rest` is the unconsumed remainder of the stream.
`err read msg rest` : an InvalidHeaderErr carrying the bytes read so far
and the remainder of the stream after the failed attempt.
`ioErr msg` : a raw io error returned without the InvalidHeaderErr wrapper.
`panic msg` : a Go runtime panic (out-of-range slice expression or index). -/
inductive ParseOutcome where
  | ok (h : Header) (rest : List Nat)
  | err (read : List Nat) (msg : String) (rest : List Nat)
  | ioErr (msg : String)
  | panic (msg : String)
deriving DecidableEq, Repr

/-- The 12-byte version 2 signature (parse.go, sigV2). -/
def sigV2 : List Nat := [0x0D, 0x0A, 0x0D, 0x0A, 0x00, 0x0D, 0x0A, 0x51, 0x55, 0x49, 0x54, 0x0A]

/-! ## Go slice primitives -/

/-- Two-index Go slice expression buf[lo:hi] over a backing array: legal
when lo ≤ hi ≤ cap, yielding the array bytes in that range; `none` is the
runtime panic of an out-of-range expression. -/
def goSlice2 (arr : List Nat) (lo hi : Nat) : Option (List Nat) :=
  if lo ≤ hi ∧ hi ≤ arr.length then some ((arr.drop lo).take (hi - lo)) else none

/-- One-index Go slice expression buf[lo:] over a slice of length len backed
by arr: legal when lo ≤ len, yielding the bytes from lo up to len. -/
def goSlice1 (arr : List Nat) (len lo : Nat) : Option (List Nat) :=
  if lo ≤ len then some ((arr.drop lo).take (len - lo)) else none

/-- binary.BigEndian.Uint16: bounds-checks the second byte, then combines
the first two bytes; `none` is the index-out-of-range panic. -/
def uint16BE (b : List Nat) : Option Nat :=
  if 2 ≤ b.length then some (256 * b.getD 0 0 + b.getD 1 0) else none

/-- Threads a possibly-panicking slice operation through a parse: a `none`
becomes a panic outcome with the given message. -/
def orPanic (o : Option α) (msg : String) (k : α → ParseOutcome) : ParseOutcome :=
  match o with
  | none => .panic msg
  | some a => k a

/-! ## TLV codec (tlv.go) -/

/-- A type-length-value extension record trailing a v2 header (tlv.go).
The field Type of the Go struct is `ty` here because `type` is reserved. -/
structure TLV where
  ty : Nat
  value : List Nat
deriving DecidableEq, Repr

/-- Go distinguishes a nil slice from a non-nil empty slice; a Go `[]TLV`
is therefore `Option (List TLV)`, with `none` for the nil slice. -/
def goTLVLen (s : Option (List TLV)) : Nat := (s.getD []).length

/-- Go append on a possibly-nil slice: appending to nil yields a non-nil
one-element slice. -/
def goTLVAppend (s : Option (List TLV)) (t : TLV) : Option (List TLV) :=
  some (s.getD [] ++ [t])

/-- The record-consuming loop of ParseTLVs (tlv.go): each record is one type
byte, a big-endian two-byte length, and that many value bytes; fewer than
three bytes at a record boundary, or a declared length exceeding the rest of
the input, is an unexpected-EOF error. -/
def parseTLVsLoop (b : List Nat) (res : Option (List TLV)) :
    Except String (Option (List TLV)) :=
  if b = [] then .ok res
  else if b.length < 3 then .error "unexpected EOF"
  else
    let vlen := 256 * b.getD 1 0 + b.getD 2 0
    if b.length < 3 + vlen then .error "unexpected EOF"
    else parseTLVsLoop (b.drop (3 + vlen)) (goTLVAppend res ⟨b.getD 0 0, (b.drop 3).take vlen⟩)
termination_by b.length
decreasing_by
  simp only [List.length_drop]
  omega

/-- ParseTLVs (tlv.go): parses a byte string into a slice of TLVs; an empty
input returns the nil slice (`return nil, nil` in the source) without error. -/
def ParseTLVs (b : List Nat) : Except String (Option (List TLV)) :=
  if b = [] then .ok none
  else parseTLVsLoop b none

/-! ## Listener policy (listener.go) -/

/-- A parsed IP network: the (already masked) base address value, the number
of leading one bits of the mask, and the total bit width of the mask, as
reported by Go net.IPMask.Size. -/
structure IPNet where
  base : Nat
  ones : Nat
  bits : Nat
deriving DecidableEq, Repr

/-- Subnet membership, the model of net.IPNet.Contains: the address and the
base agree on the first `ones` bits. -/
def IPNet.containsIP (n : IPNet) (ip : Nat) : Bool :=
  ip / 2 ^ (n.bits - n.ones) = n.base / 2 ^ (n.bits - n.ones)

/-- A listener rule (proxyprotocol.go / listener.go): a subnet together with
a timeout in nanoseconds, zero meaning no deadline. -/
structure Rule where
  subnet : IPNet
  timeout : Nat
deriving DecidableEq, Repr

/-- rules.Less (listener.go): prefix length descending, then mask bit width
descending, then the timeout comparison exactly as written in the source,
where a zero timeout of the second argument compares as true before the
numeric comparison is consulted. -/
def rulesLess (a b : Rule) : Bool :=
  if a.subnet.ones ≠ b.subnet.ones then a.subnet.ones > b.subnet.ones
  else if a.subnet.bits ≠ b.subnet.bits then a.subnet.bits > b.subnet.bits
  else if a.timeout ≠ b.timeout then
    if b.timeout = 0 then true
    else a.timeout < b.timeout
  else a.timeout < b.timeout

/-- One bubbling step of the Go standard library insertion sort, operating on
the reversed already-sorted prefix: the new element moves left past each
element it compares Less than. -/
def insRev (x : Rule) : List Rule → List Rule
  | [] => [x]
  | e :: rest => if rulesLess x e then e :: insRev x rest else x :: e :: rest

/-- sort.Sort on a rule slice, modelled as the insertion sort the Go sort
package uses for slices shorter than twelve elements (the only lengths the
claims exercise); faithful to the comparison order of the source. -/
def sortRules (l : List Rule) : List Rule :=
  (l.foldl (fun acc x => insRev x acc) []).reverse

/-- The deduplication loop body of Listener.SetFilter (listener.go): walks
the sorted tail, skipping rules whose subnet renders identically to the
previously kept rule, and returns the elements appended to nf. -/
def dedupKept (last : Rule) : List Rule → List Rule
  | [] => []
  | f :: fs =>
    if last.subnet = f.subnet then dedupKept last fs
    else f :: dedupKept f fs

/-- Listener.SetFilter (listener.go): copies the rules, sorts them, runs the
dedup loop whose appends write into the backing array of the sorted slice
starting at index one, and stores the full-length sorted slice.  The slice
nf produced by the loop is discarded in the source; only its aliased writes
into positions 1.. of the array survive, positions past the kept elements
retaining their previous values. -/
def SetFilter (filter : List Rule) : List Rule :=
  let sorted := sortRules filter
  match sorted with
  | [] => []
  | first :: rest =>
    let kept := dedupKept first rest
    first :: (kept ++ rest.drop kept.length)

/-- The wrapping decision of Listener.Accept (listener.go) for a connection
whose peer is an IP address: `none` when no rule matches (raw connection,
no PROXY header expected), `some none` for a matching zero-timeout rule
(header required, no deadline), `some (some t)` for a matching rule with
concrete timeout t; an empty filter requires a header under the default
timeout. -/
def acceptDecision (filter : List Rule) (defaultTimeout : Nat) (remoteIP : Nat) :
    Option (Option Nat) :=
  if filter = [] then some (some defaultTimeout)
  else
    match filter.find? (fun r => r.subnet.containsIP remoteIP) with
    | none => none
    | some r => if r.timeout = 0 then some none else some (some r.timeout)

/-! ## Connection wrapper (conn.go) -/

/-- Header.SrcAddr (conn.go accessors use it): a v1 header always yields a
TCP endpoint built from its IP and port fields, even when those are zero
valued; a v2 header yields its source address, which is nil for
family/protocol pairs outside the six defined combinations. -/
def Header.SrcAddr : Header → Option Addr
  | .v1 h => some (.tcp h.sourceIP h.sourcePort)
  | .v2 h => h.sourceAddr

/-- Header.DestAddr, symmetric to SrcAddr. -/
def Header.DestAddr : Header → Option Addr
  | .v1 h => some (.tcp h.destIP h.destPort)
  | .v2 h => h.destAddr

/-- The state of a Conn after its one-shot parse has run (conn.go): the
addresses of the underlying net.Conn and the stored parse result. -/
structure Conn where
  underlyingLocal : Addr
  underlyingRemote : Addr
  parsed : Except String Header
deriving Repr

/-- Conn.RemoteAddr (conn.go): the remote address from the header, falling
back to the underlying connection when parsing failed or the header address
is nil. -/
def Conn.RemoteAddr (c : Conn) : Addr :=
  match c.parsed with
  | .error _ => c.underlyingRemote
  | .ok h =>
    match h.SrcAddr with
    | none => c.underlyingRemote
    | some a => a

/-- Conn.LocalAddr (conn.go): the local address from the header, falling
back to the underlying connection when parsing failed or the header address
is nil. -/
def Conn.LocalAddr (c : Conn) : Addr :=
  match c.parsed with
  | .error _ => c.underlyingLocal
  | .ok h =>
    match h.DestAddr with
    | none => c.underlyingLocal
    | some a => a

/-! ## Version 2 decoder (headerv2.go, parseV2) -/

/-- strings.TrimRight(s, NUL): removes trailing zero bytes. -/
def trimNulRight (b : List Nat) : List Nat :=
  (b.reverse.dropWhile (fun x => x = 0)).reverse

/-- The address-block switch of parseV2 (headerv2.go).  `cmd` and
`famProto` come from the fixed prefix, `len2` is the declared length, `buf`
holds the 16 + len2 bytes read so far, and `remaining` is the rest of the
stream.  The backing array has capacity max 232 (16+len2): the 232-byte
allocation is reused unless the declared length needs more, and bytes past
the slice length are the zeros of the allocation.  Each slice expression is
bounds-checked exactly as the Go runtime checks it. -/
def parseV2switch (cmd famProto len2 : Nat) (buf : List Nat) (remaining : List Nat) :
    ParseOutcome :=
  let len := 16 + len2
  let arr := buf ++ List.replicate (max 232 len - len) 0
  let fam := famProto / 16
  let proto := famProto % 16
  if famProto = 0x11 then
    orPanic (goSlice2 arr 16 20) "slice bounds out of range" fun sip =>
    orPanic (goSlice1 arr len 24) "slice bounds out of range" fun spb =>
    orPanic (uint16BE spb) "index out of range" fun sport =>
    orPanic (goSlice2 arr 20 24) "slice bounds out of range" fun dip =>
    orPanic (goSlice1 arr len 26) "slice bounds out of range" fun dpb =>
    orPanic (uint16BE dpb) "index out of range" fun dport =>
    orPanic (goSlice1 arr len 28) "slice bounds out of range" fun trail =>
    .ok (.v2 ⟨cmd, fam, proto, some (.tcp sip sport), some (.tcp dip dport), trail⟩) remaining
  else if famProto = 0x12 then
    orPanic (goSlice2 arr 16 20) "slice bounds out of range" fun sip =>
    orPanic (goSlice1 arr len 24) "slice bounds out of range" fun spb =>
    orPanic (uint16BE spb) "index out of range" fun sport =>
    orPanic (goSlice2 arr 20 24) "slice bounds out of range" fun dip =>
    orPanic (goSlice1 arr len 26) "slice bounds out of range" fun dpb =>
    orPanic (uint16BE dpb) "index out of range" fun dport =>
    orPanic (goSlice1 arr len 28) "slice bounds out of range" fun trail =>
    .ok (.v2 ⟨cmd, fam, proto, some (.udp sip sport), some (.udp dip dport), trail⟩) remaining
  else if famProto = 0x21 then
    orPanic (goSlice2 arr 16 32) "slice bounds out of range" fun sip =>
    orPanic (goSlice1 arr len 48) "slice bounds out of range" fun spb =>
    orPanic (uint16BE spb) "index out of range" fun sport =>
    orPanic (goSlice2 arr 32 48) "slice bounds out of range" fun dip =>
    orPanic (goSlice1 arr len 50) "slice bounds out of range" fun dpb =>
    orPanic (uint16BE dpb) "index out of range" fun dport =>
    orPanic (goSlice1 arr len 52) "slice bounds out of range" fun trail =>
    .ok (.v2 ⟨cmd, fam, proto, some (.tcp sip sport), some (.tcp dip dport), trail⟩) remaining
  else if famProto = 0x22 then
    orPanic (goSlice2 arr 16 32) "slice bounds out of range" fun sip =>
    orPanic (goSlice1 arr len 48) "slice bounds out of range" fun spb =>
    orPanic (uint16BE spb) "index out of range" fun sport =>
    orPanic (goSlice2 arr 32 48) "slice bounds out of range" fun dip =>
    orPanic (goSlice1 arr len 50) "slice bounds out of range" fun dpb =>
    orPanic (uint16BE dpb) "index out of range" fun dport =>
    orPanic (goSlice1 arr len 52) "slice bounds out of range" fun trail =>
    .ok (.v2 ⟨cmd, fam, proto, some (.udp sip sport), some (.udp dip dport), trail⟩) remaining
  else if famProto = 0x31 then
    orPanic (goSlice2 arr 16 124) "slice bounds out of range" fun sn =>
    orPanic (goSlice2 arr 124 232) "slice bounds out of range" fun dn =>
    orPanic (goSlice1 arr len 232) "slice bounds out of range" fun trail =>
    .ok (.v2 ⟨cmd, fam, proto, some (.unix "unix" (trimNulRight sn)),
      some (.unix "unix" (trimNulRight dn)), trail⟩) remaining
  else if famProto = 0x32 then
    orPanic (goSlice2 arr 16 124) "slice bounds out of range" fun sn =>
    orPanic (goSlice2 arr 124 232) "slice bounds out of range" fun dn =>
    orPanic (goSlice1 arr len 232) "slice bounds out of range" fun trail =>
    .ok (.v2 ⟨cmd, fam, proto, some (.unix "unixgram" (trimNulRight sn)),
      some (.unix "unixgram" (trimNulRight dn)), trail⟩) remaining
  else
    orPanic (goSlice1 arr len 16) "slice bounds out of range" fun trail =>
    .ok (.v2 ⟨cmd, fam, proto, none, none, trail⟩) remaining

/-- parseV2 (headerv2.go): reads the fixed 16-byte prefix, validates the
signature and the version, command, family and protocol nibbles, then reads
exactly the declared number of additional bytes, growing the buffer when
the declared length exceeds the 232-byte allocation and truncating it
otherwise, and finally decodes the address block.  Error outcomes carry the
bytes read so far, as InvalidHeaderErr does. -/
def parseV2 (s : List Nat) : ParseOutcome :=
  if s.length < 16 then
    .err s (if s.length = 0 then "EOF" else "unexpected EOF") []
  else
    let buf0 := s.take 16
    let rest := s.drop 16
    if buf0.take 12 ≠ sigV2 then .err buf0 "invalid signature" rest
    else if buf0.getD 12 0 / 16 ≠ 2 then .err buf0 "invalid v2 version value" rest
    else if buf0.getD 12 0 % 16 > CommandProxy then .err buf0 "invalid v2 command" rest
    else if buf0.getD 13 0 / 16 > AddrFamilyUnix then .err buf0 "invalid v2 address family" rest
    else if buf0.getD 13 0 % 16 > ProtoDGram then .err buf0 "invalid v2 transport protocol" rest
    else
      let len2 := 256 * buf0.getD 14 0 + buf0.getD 15 0
      if rest.length < len2 then .err (buf0 ++ rest) "unexpected EOF" []
      else parseV2switch (buf0.getD 12 0 % 16) (buf0.getD 13 0) len2
        (buf0 ++ rest.take len2) (rest.drop len2)

/-! ## Version 2 encoder (headerv2.go, HeaderV2.WriteTo) -/

/-- Outcome of writing a header: the bytes produced, a returned error, or a
runtime panic. -/
inductive WriteOutcome where
  | ok (bytes : List Nat)
  | err (msg : String)
  | panic (msg : String)
deriving DecidableEq, Repr

/-- Whether a write outcome is a success. -/
def WriteOutcome.isOk : WriteOutcome → Bool
  | .ok _ => true
  | _ => false

/-- Go conversion of an int port to uint16: reduction modulo 2^16 of the
two-complement value. -/
def intToUint16 (i : Int) : Nat := (i % 65536).toNat

/-- Big-endian bytes of a value below 2^16. -/
def be16 (n : Nat) : List Nat := [n / 256 % 256, n % 256]

/-- The setAddr closure of WriteTo (headerv2.go): checks both IP lengths and
fills the address block.  In the source setAddr returns an error on a length
mismatch, but every call site discards that error, so the only observable
effect of a mismatch is that the 216-byte zero block is left unchanged. -/
def setAddr (addr : List Nat) (sip dip : List Nat) (sport dport : Int) (ipLen : Nat) :
    List Nat :=
  if sip.length ≠ ipLen then addr
  else if dip.length ≠ ipLen then addr
  else sip ++ dip ++ be16 (intToUint16 sport) ++ be16 (intToUint16 dport)

/-- A Unix path copied into its 108-byte NUL-padded slot. -/
def pad108 (name : List Nat) : List Nat :=
  name.take 108 ++ List.replicate (108 - name.length) 0

/-- Assembles the bytes WriteTo emits: signature, version/command byte,
family/protocol byte, the big-endian length field computed in the source as
uint16(16 + len(addr) + len(trailing)), then the address block and the
trailing bytes. -/
def v2outBytes (verCmd famProto : Nat) (addr trailing : List Nat) : WriteOutcome :=
  .ok (sigV2 ++ [verCmd, famProto] ++ be16 ((16 + addr.length + trailing.length) % 65536)
    ++ addr ++ trailing)

/-- HeaderV2.WriteTo (headerv2.go).  For the IP families the source performs
unchecked type assertions (a wrong endpoint variant leaves a nil pointer
that panics when its IP field is read) and discards the setAddr error; for
the Unix families it validates the source address, then validates the
destination by re-examining h.SourceAddr (as the source does), and copies
the source name into both 108-byte slots. -/
def HeaderV2.WriteTo (h : HeaderV2) : WriteOutcome :=
  let verCmd := 2 * 16 + h.command % 16
  let famProto := h.family % 16 * 16 + h.protocol % 16
  let addr0 : List Nat := List.replicate 216 0
  if famProto = 0x11 then
    match h.sourceAddr, h.destAddr with
    | some (.tcp sip sp), some (.tcp dip dp) =>
      v2outBytes verCmd famProto (setAddr addr0 sip dip sp dp 4) h.trailing
    | _, _ => .panic "invalid memory address or nil pointer dereference"
  else if famProto = 0x12 then
    match h.sourceAddr, h.destAddr with
    | some (.udp sip sp), some (.udp dip dp) =>
      v2outBytes verCmd famProto (setAddr addr0 sip dip sp dp 4) h.trailing
    | _, _ => .panic "invalid memory address or nil pointer dereference"
  else if famProto = 0x21 then
    match h.sourceAddr, h.destAddr with
    | some (.tcp sip sp), some (.tcp dip dp) =>
      v2outBytes verCmd famProto (setAddr addr0 sip dip sp dp 16) h.trailing
    | _, _ => .panic "invalid memory address or nil pointer dereference"
  else if famProto = 0x22 then
    match h.sourceAddr, h.destAddr with
    | some (.udp sip sp), some (.udp dip dp) =>
      v2outBytes verCmd famProto (setAddr addr0 sip dip sp dp 16) h.trailing
    | _, _ => .panic "invalid memory address or nil pointer dereference"
  else if famProto = 0x31 then
    match h.sourceAddr with
    | some (.unix n name) =>
      if n ≠ "unix" ∨ 108 < name.length then .err "invalid source address"
      else if n ≠ "unix" ∨ 108 < name.length then .err "invalid destination address"
      else v2outBytes verCmd famProto (pad108 name ++ pad108 name) h.trailing
    | _ => .err "invalid source address"
  else if famProto = 0x32 then
    match h.sourceAddr with
    | some (.unix n name) =>
      if n ≠ "unixgram" ∨ 108 < name.length then .err "invalid source address"
      else if n ≠ "unixgram" ∨ 108 < name.length then .err "invalid destination address"
      else v2outBytes verCmd famProto (pad108 name ++ pad108 name) h.trailing
    | _ => .err "invalid source address"
  else v2outBytes verCmd famProto addr0 h.trailing

/-! ## net.ParseIP model

The v1 decoder delegates IP-literal parsing to net.ParseIP.  The model
below follows the Go standard library: a dotted form is four decimal fields
of at most value 255 without leading zeros, returned in the 16-byte
IPv4-in-IPv6 form; a colon form is groups of at most four hex digits with
one optional "::" ellipsis and an optional embedded dotted tail. -/

/-- Value of a string of decimal digit bytes. -/
def digitsVal (ds : List Nat) : Nat := ds.foldl (fun a b => 10 * a + (b - 48)) 0

/-- One decimal field of a dotted address: nonempty, digits only, no
leading zero, value at most 255. -/
def v4field (f : List Nat) : Option Nat :=
  if f = [] then none
  else if f.any (fun b => b < 48 || 57 < b) then none
  else if 1 < f.length ∧ f.headD 0 = 48 then none
  else if 255 < digitsVal f then none
  else some (digitsVal f)

/-- Splits a byte string on a separator byte; n separators yield n+1
fields. -/
def splitOnByte (sep : Nat) : List Nat → List (List Nat)
  | [] => [[]]
  | b :: rest =>
    let r := splitOnByte sep rest
    if b = sep then [] :: r
    else
      match r with
      | [] => [[b]]
      | h :: t => (b :: h) :: t

/-- Dotted-decimal IPv4 parsing: exactly four valid fields. -/
def parseIPv4 (s : List Nat) : Option (List Nat) :=
  match (splitOnByte 46 s).map v4field with
  | [some a, some b, some c, some d] => some [a, b, c, d]
  | _ => none

/-- Reads a run of leading hexadecimal digits: the value and the count of
bytes consumed; `none` when no hex digit leads. -/
def xtoi (s : List Nat) : Option (Nat × Nat) :=
  let hs := s.takeWhile (fun b =>
    (48 ≤ b && b ≤ 57) || (97 ≤ b && b ≤ 102) || (65 ≤ b && b ≤ 70))
  if hs = [] then none
  else some (hs.foldl (fun a b =>
    16 * a + (if b ≤ 57 then b - 48 else if b ≤ 70 then b - 55 else b - 87)) 0, hs.length)

/-- The group-reading loop of IPv6 parsing: accumulates two bytes per hex
group, records the position of at most one "::" ellipsis, and accepts an
embedded dotted tail in the final four-byte position.  Returns the bytes
collected, the ellipsis position, and the unconsumed input (which must be
empty for the parse to succeed). -/
def v6loop (fuel : Nat) (s : List Nat) (acc : List Nat) (ell : Option Nat) :
    Option (List Nat × Option Nat × List Nat) :=
  match fuel with
  | 0 => some (acc, ell, s)
  | fuel + 1 =>
    if 16 ≤ acc.length then some (acc, ell, s)
    else
      match xtoi s with
      | none => none
      | some (n, c) =>
        if 65535 < n then none
        else if s.drop c ≠ [] ∧ (s.drop c).headD 0 = 46 then
          if ell = none ∧ acc.length ≠ 12 then none
          else if 16 < acc.length + 4 then none
          else
            match parseIPv4 s with
            | none => none
            | some ip4 => some (acc ++ ip4, ell, [])
        else
          let acc2 := acc ++ [n / 256, n % 256]
          let s2 := s.drop c
          if s2 = [] then some (acc2, ell, [])
          else if s2.headD 0 ≠ 58 ∨ s2.length = 1 then none
          else
            let s3 := s2.drop 1
            if s3.headD 0 = 58 then
              if ell ≠ none then none
              else
                let s4 := s3.drop 1
                if s4 = [] then some (acc2, some acc2.length, [])
                else v6loop fuel s4 acc2 (some acc2.length)
            else v6loop fuel s3 acc2 ell

/-- Colon-form IPv6 parsing, the model of the standard library parseIPv6:
an optional leading "::", the group loop, then the zero-fill expansion at
the recorded ellipsis position when fewer than sixteen bytes were read. -/
def parseIPv6 (s : List Nat) : Option (List Nat) :=
  if s.take 2 = [58, 58] ∧ s.drop 2 = [] then some (List.replicate 16 0)
  else
    let ell0 : Option Nat := if s.take 2 = [58, 58] then some 0 else none
    let s0 := if s.take 2 = [58, 58] then s.drop 2 else s
    match v6loop 8 s0 [] ell0 with
    | none => none
    | some (acc, ell, leftover) =>
      if leftover ≠ [] then none
      else if acc.length < 16 then
        match ell with
        | none => none
        | some e => some (acc.take e ++ List.replicate (16 - acc.length) 0 ++ acc.drop e)
      else
        match ell with
        | none => some acc
        | some _ => none

/-- net.ParseIP: dispatches to the dotted or colon parser on the first dot
or colon byte; a dotted result is returned in the 16-byte mapped form. -/
def parseIP (s : List Nat) : Option (List Nat) :=
  match s.find? (fun b => b = 46 || b = 58) with
  | some 46 => (parseIPv4 s).map (fun ab => [0, 0, 0, 0, 0, 0, 0, 0, 0, 0, 255, 255] ++ ab)
  | some 58 => parseIPv6 s
  | _ => none

/-! ## Version 1 decoder (headerv1.go, parseV1) -/

/-- The line loop of parseV1: reads bytes through the first newline,
failing on end of input or when 108 bytes accumulate without a newline.
Returns the line and the unconsumed remainder; errors carry the bytes read
and the remainder. -/
def readLine : List Nat → List Nat → Except (List Nat × String × List Nat) (List Nat × List Nat)
  | [], acc => .error (acc, "EOF", [])
  | b :: rest, acc =>
    let acc2 := acc ++ [b]
    if b = 10 then .ok (acc2, rest)
    else if acc2.length = 108 then .error (acc2, "header too long", rest)
    else readLine rest acc2

/-- The result of scanning a line against `PROXY %s %s %s %d %d\r\n`:
the count of items scanned, the first scan error if any, and the scanned
values (zero values where scanning did not reach them). -/
structure ScanRes where
  n : Nat
  errMsg : Option String
  fam : List Nat
  srcS : List Nat
  dstS : List Nat
  srcP : Int
  dstP : Int
deriving DecidableEq, Repr

/-- Space bytes for token separation: space, tab, vertical tab, form feed.
Newlines are significant to Sscanf and are handled separately; a carriage
return terminates a token (it is white space) but input "\r\n" matches the
format newline. -/
def isSp (b : Nat) : Bool := b = 32 || b = 9 || b = 11 || b = 12

/-- A byte that ends a %s token: white space or a newline byte. -/
def isTokenEnd (b : Nat) : Bool := isSp b || b = 13 || b = 10

/-- Reads a %s token: the maximal run of non-terminating bytes; an empty
run (the next byte is a newline, or input ends) is a scan error. -/
def scanToken (s : List Nat) : Option (List Nat × List Nat) :=
  let t := s.takeWhile (fun b => !isTokenEnd b)
  if t = [] then none else some (t, s.drop t.length)

/-- Reads a %d item: an optional sign followed by a nonempty digit run. -/
def scanInt (s : List Nat) : Option (Int × List Nat) :=
  let (sgn, s1) : Int × List Nat :=
    match s with
    | 45 :: r => (-1, r)
    | 43 :: r => (1, r)
    | _ => (1, s)
  let ds := s1.takeWhile (fun b => 48 ≤ b && b ≤ 57)
  if ds = [] then none else some (sgn * Int.ofNat (digitsVal ds), s1.drop ds.length)

/-- Matches the format tail `\r\n` against the input: per the fmt package a
carriage return immediately followed by a newline is a plain newline, so
the input must now be exactly "\r\n" or "\n". -/
def matchCRLF (s : List Nat) : Bool := s = [13, 10] || s = [10]

/-- fmt.Sscanf of a line against `PROXY %s %s %s %d %d\r\n` (parse.go,
sigV1).  The literal must match exactly, each format space requires at
least one input space (newlines are significant and never skipped), and
scanning stops at the first failure, reporting the count of items scanned
so far. -/
def scanProxy (line : List Nat) : ScanRes :=
  if line.take 5 ≠ [80, 82, 79, 88, 89] then
    ⟨0, some "input does not match format", [], [], [], 0, 0⟩
  else
    let s1 := (line.drop 5).dropWhile isSp
    if s1.length = (line.drop 5).length then
      ⟨0, some "input does not match format", [], [], [], 0, 0⟩
    else
      match scanToken s1 with
      | none => ⟨0, some "unexpected newline", [], [], [], 0, 0⟩
      | some (fam, s2) =>
        let s3 := s2.dropWhile isSp
        if s3.length = s2.length then ⟨1, some "input does not match format", fam, [], [], 0, 0⟩
        else
          match scanToken s3 with
          | none => ⟨1, some "unexpected newline", fam, [], [], 0, 0⟩
          | some (srcS, s4) =>
            let s5 := s4.dropWhile isSp
            if s5.length = s4.length then
              ⟨2, some "input does not match format", fam, srcS, [], 0, 0⟩
            else
              match scanToken s5 with
              | none => ⟨2, some "unexpected newline", fam, srcS, [], 0, 0⟩
              | some (dstS, s6) =>
                let s7 := s6.dropWhile isSp
                if s7.length = s6.length then
                  ⟨3, some "input does not match format", fam, srcS, dstS, 0, 0⟩
                else
                  match scanInt s7 with
                  | none => ⟨3, some "expected integer", fam, srcS, dstS, 0, 0⟩
                  | some (srcP, s8) =>
                    let s9 := s8.dropWhile isSp
                    if s9.length = s8.length then
                      ⟨4, some "input does not match format", fam, srcS, dstS, srcP, 0⟩
                    else
                      match scanInt s9 with
                      | none => ⟨4, some "expected integer", fam, srcS, dstS, srcP, 0⟩
                      | some (dstP, s10) =>
                        if matchCRLF s10 then ⟨5, none, fam, srcS, dstS, srcP, dstP⟩
                        else ⟨5, some "input does not match format", fam, srcS, dstS, srcP, dstP⟩

/-- The family token UNKNOWN as wire bytes. -/
def tokUNKNOWN : List Nat := [85, 78, 75, 78, 79, 87, 78]

/-- The family token TCP4 as wire bytes. -/
def tokTCP4 : List Nat := [84, 67, 80, 52]

/-- The family token TCP6 as wire bytes. -/
def tokTCP6 : List Nat := [84, 67, 80, 54]

/-- The family switch of parseV1 (headerv1.go) applied to a scanned line:
a scan that produced no item fails with the scan error; family UNKNOWN
succeeds with an otherwise zero header regardless of any later scan error;
TCP4 and TCP6 require a clean scan and two parseable IP literals; any other
family token is the unsupported-protocol error. -/
def parseV1Line (line rest : List Nat) : ParseOutcome :=
  let r := scanProxy line
  if r.n = 0 ∧ r.errMsg ≠ none then .err line (r.errMsg.getD "") rest
  else if r.fam = tokUNKNOWN then .ok (.v1 ⟨r.fam, [], [], 0, 0⟩) rest
  else if r.fam = tokTCP4 ∨ r.fam = tokTCP6 then
    match r.errMsg with
    | some m => .err line m rest
    | none =>
      match parseIP r.srcS with
      | none => .err line "invalid source address" rest
      | some si =>
        match parseIP r.dstS with
        | none => .err line "invalid destination address" rest
        | some di => .ok (.v1 ⟨r.fam, si, di, r.srcP, r.dstP⟩) rest
  else .err line "unsupported INET protocol/family" rest

/-- parseV1 (headerv1.go): reads one line and decodes it. -/
def parseV1 (s : List Nat) : ParseOutcome :=
  match readLine s [] with
  | .error (read, m, rest) => .err read m rest
  | .ok (line, rest) => parseV1Line line rest

/-! ## Dispatch (parse.go, Parse) -/

/-- Parse (parse.go): peeks one byte and unreads it; a leading `P`
dispatches to the v1 decoder and a leading 0x0D to the v2 decoder, both of
which see the full stream again; any other leading byte is an
invalid-signature error whose Read field is empty and which consumes no
input.  An empty stream is the bare io error from ReadByte. -/
def Parse (s : List Nat) : ParseOutcome :=
  match s with
  | [] => .ioErr "EOF"
  | b :: _ =>
    if b = 0x50 then parseV1 s
    else if b = 0x0D then parseV2 s
    else .err [] "invalid signature" s

/-! ## Concrete values used by the theorems -/

/-- A 10.0.0.0/8 rule with no timeout. -/
def ruleZero : Rule := ⟨⟨10 * 2 ^ 24, 8, 32⟩, 0⟩

/-- A 10.0.0.0/8 rule with a one-second timeout (in nanoseconds). -/
def ruleOneSec : Rule := ⟨⟨10 * 2 ^ 24, 8, 32⟩, 1000000000⟩

/-- The address 10.1.2.3 as a 32-bit value. -/
def ip10123 : Nat := 10 * 2 ^ 24 + 66051

/-- A decoded v1 UNKNOWN header: family token only, all else zero valued. -/
def unknownV1Header : HeaderV1 := ⟨tokUNKNOWN, [], [], 0, 0⟩

/-- A connection wrapper that parsed a v1 UNKNOWN header, with distinct
underlying addresses. -/
def unknownConn : Conn :=
  ⟨.tcp [10, 0, 0, 1] 999, .tcp [10, 0, 0, 2] 888, .ok (.v1 unknownV1Header)⟩

/-- A valid TCP-over-IPv4 proxy header with four-byte IPs. -/
def rtHeader : HeaderV2 :=
  ⟨CommandProxy, AddrFamilyInet, ProtoStream,
    some (.tcp [192, 168, 0, 1] 80), some (.tcp [192, 168, 0, 2] 90), []⟩

/-- The bytes WriteTo produces for rtHeader: the length field holds 28,
although only 12 address bytes follow the 16-byte prefix. -/
def rtBytes : List Nat :=
  sigV2 ++ [0x21, 0x11, 0x00, 28] ++ [192, 168, 0, 1, 192, 168, 0, 2, 0, 80, 0, 90]

/-- The truncated v2 input of the specification example: signature, version
2 with the proxy command, UDP over IPv4, declared length zero, nothing
further. -/
def c3Input : List Nat := sigV2 ++ [0x21, 0x12, 0x00, 0x00]

/-- A TCP-over-IPv4 header whose endpoints carry the sixteen-byte mapped
form net.ParseIP returns for a dotted literal, as the repository test
TestHeaderV2 builds them: the wrong length for the four-byte slot. -/
def mismatchedV2Header : HeaderV2 :=
  ⟨CommandProxy, AddrFamilyInet, ProtoStream,
    some (.tcp [0, 0, 0, 0, 0, 0, 0, 0, 0, 0, 255, 255, 192, 168, 0, 1] 80),
    some (.tcp [0, 0, 0, 0, 0, 0, 0, 0, 0, 0, 255, 255, 192, 168, 0, 2] 90), []⟩

/-! ## C1 -/

/-- C1: encoding a valid TCP/IPv4 header and decoding the result does not
reproduce the header: WriteTo computes the length field as 16 plus the
address block and trailing lengths (28 here, where the wire format and the
repository test TestHeaderV2 require 12), so the decoder attempts to read
28 bytes after the prefix, of which only 12 exist, and fails with an
unexpected-EOF InvalidHeaderErr instead of returning the header. -/
theorem writeTo_roundtrip_fails :
    HeaderV2.WriteTo rtHeader = .ok rtBytes
  ∧ rtBytes.getD 14 0 * 256 + rtBytes.getD 15 0 = 28
  ∧ parseV2 rtBytes = .err rtBytes "unexpected EOF" []
  ∧ Parse rtBytes = .err rtBytes "unexpected EOF" [] := by decide

/-! ## C3 -/

/-- C3: on the 16-byte input that declares UDP over IPv4 with length zero,
parseV2 does not return a truncated-input error: it reaches the address
switch with a 16-byte slice and the expression buf[24:] is a runtime panic
(slice bounds out of range), so Parse crashes where its own test
TestParse_Malformed asserts an error return. -/
theorem parseV2_short_declared_length_panics :
    parseV2 c3Input = .panic "slice bounds out of range"
  ∧ Parse c3Input = .panic "slice bounds out of range" := by decide

/-! ## C4 -/

/-- C4: the rule comparison is not a strict ordering: for two rules on the
identical subnet, one with no timeout and one with a one-second timeout,
Less answers true under both argument orders, because the zero timeout of
the first argument falls through to the numeric comparison (zero compares
lower) while a zero timeout of the second argument returns true directly;
contrary to the claim, the zero-timeout rule is reported as sorting before
the concrete one. -/
theorem rulesLess_zero_timeout_both_true :
    rulesLess ruleZero ruleOneSec = true ∧ rulesLess ruleOneSec ruleZero = true := by decide

/-! ## C5 -/

/-- C5: SetFilter applied to a concrete 10.0.0.0/8 one-second rule followed
by a zero-timeout duplicate stores both rules, with the zero-timeout rule
sorted first (the inconsistent comparison swaps the pair), so the duplicate
is not removed and an Accept lookup for 10.1.2.3 finds the zero-timeout
rule: the concrete one-second timeout is overridden, contrary to the claim
and to the SetFilter documentation. -/
theorem SetFilter_keeps_zero_timeout_duplicate :
    SetFilter [ruleOneSec, ruleZero] = [ruleZero, ruleOneSec]
  ∧ acceptDecision (SetFilter [ruleOneSec, ruleZero]) 3000000000 ip10123 = some none := by
  decide

/-! ## C6 -/

/-- C6: WriteTo does not reject mismatched endpoints outside the Unix
source checks.  First conjuncts: the header the repository test TestHeaderV2
builds (sixteen-byte IPs in the IPv4 slots) encodes without error, emitting
the untouched 216-byte zero address block with length field 232, because
the setAddr error is discarded.  Next: a Unix-stream header whose
destination path has 200 bytes also encodes without error, because the
destination check re-examines the source address.  Last: a source path
longer than 108 bytes is rejected, showing the error path the claim
describes exists only for the source endpoint of the Unix families. -/
theorem writeTo_mismatch_not_rejected :
    (HeaderV2.WriteTo mismatchedV2Header).isOk = true
  ∧ HeaderV2.WriteTo mismatchedV2Header =
      .ok (sigV2 ++ [0x21, 0x11] ++ be16 232 ++ List.replicate 216 0)
  ∧ (HeaderV2.WriteTo ⟨1, 3, 1, some (.unix "unix" [102]),
      some (.unix "unix" (List.replicate 200 7)), []⟩).isOk = true
  ∧ HeaderV2.WriteTo ⟨1, 3, 1, some (.unix "unix" (List.replicate 109 7)), none, []⟩ =
      .err "invalid source address" := by decide

/-! ## C8 -/

/-- C8 counterexample: after parsing a v1 UNKNOWN header the accessors do
not fall back to the underlying connection addresses: HeaderV1.Source
unconditionally builds a TCP endpoint, so RemoteAddr and LocalAddr return a
TCP address with nil IP and port zero instead of the underlying values. -/
theorem Conn_v1_unknown_no_fallback :
    Conn.RemoteAddr unknownConn = .tcp [] 0
  ∧ Conn.RemoteAddr unknownConn ≠ unknownConn.underlyingRemote
  ∧ Conn.LocalAddr unknownConn = .tcp [] 0
  ∧ Conn.LocalAddr unknownConn ≠ unknownConn.underlyingLocal := by decide

/-- C8 amended: the accessors return the header endpoint exactly when the
corresponding header address is non-nil and fall back to the underlying
connection exactly when it is nil or parsing failed; a v1 header always
yields a (possibly zero-valued) TCP endpoint, while a v2 header yields its
stored optional address, which is nil for family/protocol pairs outside
the six defined combinations. -/
theorem Conn_addr_accessors :
    (∀ (c : Conn) (h : Header) (a : Addr),
      c.parsed = .ok h → h.SrcAddr = some a → c.RemoteAddr = a)
  ∧ (∀ (c : Conn) (h : Header),
      c.parsed = .ok h → h.SrcAddr = none → c.RemoteAddr = c.underlyingRemote)
  ∧ (∀ (c : Conn) (e : String),
      c.parsed = .error e → c.RemoteAddr = c.underlyingRemote)
  ∧ (∀ (c : Conn) (h : Header) (a : Addr),
      c.parsed = .ok h → h.DestAddr = some a → c.LocalAddr = a)
  ∧ (∀ (c : Conn) (h : Header),
      c.parsed = .ok h → h.DestAddr = none → c.LocalAddr = c.underlyingLocal)
  ∧ (∀ (c : Conn) (e : String),
      c.parsed = .error e → c.LocalAddr = c.underlyingLocal)
  ∧ (∀ h1 : HeaderV1, Header.SrcAddr (.v1 h1) = some (.tcp h1.sourceIP h1.sourcePort))
  ∧ (∀ h2 : HeaderV2, Header.SrcAddr (.v2 h2) = h2.sourceAddr) := by
  refine ⟨?_, ?_, ?_, ?_, ?_, ?_, ?_, ?_⟩
  · intro c h a hp hs
    simp [Conn.RemoteAddr, hp, hs]
  · intro c h hp hs
    simp [Conn.RemoteAddr, hp, hs]
  · intro c e hp
    simp [Conn.RemoteAddr, hp]
  · intro c h a hp hs
    simp [Conn.LocalAddr, hp, hs]
  · intro c h hp hs
    simp [Conn.LocalAddr, hp, hs]
  · intro c e hp
    simp [Conn.LocalAddr, hp]
  · intro h1
    rfl
  · intro h2
    rfl

/-- Witness for the amended C8 theorem at a v2 header with unspecified
family: the accessor falls back to the underlying remote address. -/
theorem Conn_addr_accessors_witness :
    Conn.RemoteAddr ⟨.tcp [1] 1, .tcp [2] 2, .ok (.v2 ⟨0, 0, 0, none, none, []⟩)⟩ =
      .tcp [2] 2 :=
  Conn_addr_accessors.2.1 ⟨.tcp [1] 1, .tcp [2] 2, .ok (.v2 ⟨0, 0, 0, none, none, []⟩)⟩
    (.v2 ⟨0, 0, 0, none, none, []⟩) rfl rfl

/-! ## C9 -/

/-- C9 counterexample: ParseTLVs on empty input returns the nil slice, not
a non-nil empty slice: the source returns the literal pair nil, nil. -/
theorem ParseTLVs_empty_is_nil :
    ParseTLVs [] = .ok none ∧ ParseTLVs [] ≠ .ok (some []) := by
  constructor
  · rfl
  · intro h
    simp [ParseTLVs] at h

/-- C9 amended: parsing an empty byte sequence succeeds without error, and
the returned slice has length zero, but it is the nil (absent) slice rather
than a non-nil empty one. -/
theorem ParseTLVs_empty_ok_nil_len_zero :
    ParseTLVs [] = .ok none ∧ goTLVLen none = 0 := ⟨rfl, rfl⟩

/-! ## C10 -/

/-- C10: when the first byte of the stream is neither `P` nor 0x0D, Parse
returns the invalid-signature InvalidHeaderErr whose Read field is empty,
and the whole stream, that byte included, is left unconsumed. -/
theorem Parse_invalid_signature (b : Nat) (t : List Nat)
    (h1 : b ≠ 0x50) (h2 : b ≠ 0x0D) :
    Parse (b :: t) = .err [] "invalid signature" (b :: t) := by
  simp [Parse, h1, h2]

/-- Witness for C10 at the byte `A` followed by two payload bytes. -/
theorem Parse_invalid_signature_witness :
    Parse (65 :: [1, 2]) = .err [] "invalid signature" (65 :: [1, 2]) :=
  Parse_invalid_signature 65 [1, 2] (by decide) (by decide)

/-! ## C2 helpers -/


/-- A two-index slice expression within bounds evaluates to its bytes. -/
theorem goSlice2_eq (arr : List Nat) (lo hi : Nat) (h1 : lo ≤ hi) (h2 : hi ≤ arr.length) :
    goSlice2 arr lo hi = some ((arr.drop lo).take (hi - lo)) := by
  simp [goSlice2, h1, h2]

/-- A one-index slice expression within bounds evaluates to its bytes. -/
theorem goSlice1_eq (arr : List Nat) (len lo : Nat) (h : lo ≤ len) :
    goSlice1 arr len lo = some ((arr.drop lo).take (len - lo)) := by
  simp [goSlice1, h]

/-- Uint16 on at least two bytes evaluates without panic. -/
theorem uint16BE_eq (b : List Nat) (h : 2 ≤ b.length) :
    uint16BE b = some (256 * b.getD 0 0 + b.getD 1 0) := by
  simp [uint16BE, h]

/-- A successful slice operation continues the parse. -/
theorem orPanic_some (a : α) (msg : String) (k : α → ParseOutcome) :
    orPanic (some a) msg k = k a := rfl

/-- The 16-byte v2 prefix built from a command, family, protocol and a
declared length. -/
def v2hdr16 (cmd fam proto len2 : Nat) : List Nat :=
  sigV2 ++ [32 + cmd, 16 * fam + proto, len2 / 256, len2 % 256]

/-- The address block size the wire format assigns to a family/protocol
byte (the table of the specification). -/
def v2AddrLen (famProto : Nat) : Nat :=
  if famProto = 0x11 ∨ famProto = 0x12 then 12
  else if famProto = 0x21 ∨ famProto = 0x22 then 36
  else if famProto = 0x31 ∨ famProto = 0x32 then 216
  else 0

/-- The address-block switch succeeds, leaving its remainder untouched,
whenever the declared length covers the address block of the
family/protocol byte. -/
theorem parseV2switch_ok (cmd famProto len2 : Nat) (buf rem : List Nat)
    (hbuf : buf.length = 16 + len2) (haddr : v2AddrLen famProto ≤ len2) :
    ∃ h, parseV2switch cmd famProto len2 buf rem = .ok h rem := by
  have harr : (buf ++ List.replicate (max 232 (16 + len2) - (16 + len2)) 0).length =
      max 232 (16 + len2) := by
    rw [List.length_append, List.length_replicate, hbuf]
    omega
  by_cases e11 : famProto = 0x11
  · subst e11
    simp only [v2AddrLen] at haddr
    norm_num at haddr
    simp only [parseV2switch]
    norm_num
    rw [goSlice2_eq _ _ _ (by omega) (by rw [harr]; omega), orPanic_some]
    rw [goSlice1_eq _ _ _ (by omega), orPanic_some]
    rw [uint16BE_eq _ (by rw [List.length_take, List.length_drop, harr]; omega), orPanic_some]
    rw [goSlice2_eq _ _ _ (by omega) (by rw [harr]; omega), orPanic_some]
    rw [goSlice1_eq _ _ _ (by omega), orPanic_some]
    rw [uint16BE_eq _ (by rw [List.length_take, List.length_drop, harr]; omega), orPanic_some]
    rw [goSlice1_eq _ _ _ (by omega), orPanic_some]
    exact ⟨_, rfl⟩
  by_cases e12 : famProto = 0x12
  · subst e12
    simp only [v2AddrLen] at haddr
    norm_num at haddr
    simp only [parseV2switch]
    norm_num
    rw [goSlice2_eq _ _ _ (by omega) (by rw [harr]; omega), orPanic_some]
    rw [goSlice1_eq _ _ _ (by omega), orPanic_some]
    rw [uint16BE_eq _ (by rw [List.length_take, List.length_drop, harr]; omega), orPanic_some]
    rw [goSlice2_eq _ _ _ (by omega) (by rw [harr]; omega), orPanic_some]
    rw [goSlice1_eq _ _ _ (by omega), orPanic_some]
    rw [uint16BE_eq _ (by rw [List.length_take, List.length_drop, harr]; omega), orPanic_some]
    rw [goSlice1_eq _ _ _ (by omega), orPanic_some]
    exact ⟨_, rfl⟩
  by_cases e21 : famProto = 0x21
  · subst e21
    simp only [v2AddrLen] at haddr
    norm_num at haddr
    simp only [parseV2switch]
    norm_num
    rw [goSlice2_eq _ _ _ (by omega) (by rw [harr]; omega), orPanic_some]
    rw [goSlice1_eq _ _ _ (by omega), orPanic_some]
    rw [uint16BE_eq _ (by rw [List.length_take, List.length_drop, harr]; omega), orPanic_some]
    rw [goSlice2_eq _ _ _ (by omega) (by rw [harr]; omega), orPanic_some]
    rw [goSlice1_eq _ _ _ (by omega), orPanic_some]
    rw [uint16BE_eq _ (by rw [List.length_take, List.length_drop, harr]; omega), orPanic_some]
    rw [goSlice1_eq _ _ _ (by omega), orPanic_some]
    exact ⟨_, rfl⟩
  by_cases e22 : famProto = 0x22
  · subst e22
    simp only [v2AddrLen] at haddr
    norm_num at haddr
    simp only [parseV2switch]
    norm_num
    rw [goSlice2_eq _ _ _ (by omega) (by rw [harr]; omega), orPanic_some]
    rw [goSlice1_eq _ _ _ (by omega), orPanic_some]
    rw [uint16BE_eq _ (by rw [List.length_take, List.length_drop, harr]; omega), orPanic_some]
    rw [goSlice2_eq _ _ _ (by omega) (by rw [harr]; omega), orPanic_some]
    rw [goSlice1_eq _ _ _ (by omega), orPanic_some]
    rw [uint16BE_eq _ (by rw [List.length_take, List.length_drop, harr]; omega), orPanic_some]
    rw [goSlice1_eq _ _ _ (by omega), orPanic_some]
    exact ⟨_, rfl⟩
  by_cases e31 : famProto = 0x31
  · subst e31
    simp only [v2AddrLen] at haddr
    norm_num at haddr
    simp only [parseV2switch]
    norm_num
    rw [goSlice2_eq _ _ _ (by omega) (by rw [harr]; omega), orPanic_some]
    rw [goSlice2_eq _ _ _ (by omega) (by rw [harr]; omega), orPanic_some]
    rw [goSlice1_eq _ _ _ (by omega), orPanic_some]
    exact ⟨_, rfl⟩
  by_cases e32 : famProto = 0x32
  · subst e32
    simp only [v2AddrLen] at haddr
    norm_num at haddr
    simp only [parseV2switch]
    norm_num
    rw [goSlice2_eq _ _ _ (by omega) (by rw [harr]; omega), orPanic_some]
    rw [goSlice2_eq _ _ _ (by omega) (by rw [harr]; omega), orPanic_some]
    rw [goSlice1_eq _ _ _ (by omega), orPanic_some]
    exact ⟨_, rfl⟩
  · simp only [parseV2switch]
    rw [if_neg e11, if_neg e12, if_neg e21, if_neg e22, if_neg e31, if_neg e32]
    rw [goSlice1_eq _ _ _ (by omega), orPanic_some]
    exact ⟨_, rfl⟩



/-- C2: for every stream consisting of a well-formed v2 header (valid
signature, version, command, family and protocol, a declared length
covering the address block, and exactly that many body bytes) followed by
an arbitrary payload, the binary decoder succeeds and consumes exactly the
16-byte prefix plus the declared length: the unconsumed remainder is
precisely the payload. -/
theorem parseV2_exact_consumption (cmd fam proto len2 : Nat) (body payload : List Nat)
    (hcmd : cmd ≤ 1) (hfam : fam ≤ 3) (hproto : proto ≤ 2) (hlen : len2 < 65536)
    (hbody : body.length = len2) (haddr : v2AddrLen (16 * fam + proto) ≤ len2) :
    ∃ h, parseV2 (v2hdr16 cmd fam proto len2 ++ (body ++ payload)) = .ok h payload := by
  have htake : (v2hdr16 cmd fam proto len2 ++ (body ++ payload)).take 16 =
      v2hdr16 cmd fam proto len2 := rfl
  have hdrop : (v2hdr16 cmd fam proto len2 ++ (body ++ payload)).drop 16 =
      body ++ payload := rfl
  have hlen16 : ¬ ((v2hdr16 cmd fam proto len2 ++ (body ++ payload)).length < 16) := by
    simp [v2hdr16, sigV2]
  have hsig : (v2hdr16 cmd fam proto len2).take 12 = sigV2 := rfl
  have hg12 : (v2hdr16 cmd fam proto len2).getD 12 0 = 32 + cmd := rfl
  have hg13 : (v2hdr16 cmd fam proto len2).getD 13 0 = 16 * fam + proto := rfl
  have hg14 : (v2hdr16 cmd fam proto len2).getD 14 0 = len2 / 256 := rfl
  have hg15 : (v2hdr16 cmd fam proto len2).getD 15 0 = len2 % 256 := rfl
  have hlrec : 256 * (len2 / 256) + len2 % 256 = len2 := by omega
  have hbody' : (body ++ payload).take len2 = body := by
    rw [← hbody, List.take_left]
  have hpay : (body ++ payload).drop len2 = payload := by
    rw [← hbody, List.drop_left]
  simp only [parseV2]
  rw [if_neg hlen16, htake, hdrop, hsig, hg12, hg13, hg14, hg15, hlrec]
  rw [if_neg (by simp), if_neg (by omega),
    if_neg (by simp only [CommandProxy]; omega),
    if_neg (by simp only [AddrFamilyUnix]; omega),
    if_neg (by simp only [ProtoDGram]; omega)]
  rw [if_neg (by rw [List.length_append, hbody]; omega)]
  rw [hbody', hpay]
  exact parseV2switch_ok _ _ _ _ _ (by rw [List.length_append, hbody]; rfl) haddr

/-- Witness for C2: a TCP-over-IPv4 header with declared length 14 (twelve
address bytes and two trailing bytes) followed by a three-byte payload
decodes leaving exactly the payload unconsumed. -/
theorem parseV2_exact_consumption_witness :
    ∃ h, parseV2 (v2hdr16 1 1 1 14 ++
      ([192, 168, 0, 1, 192, 168, 0, 2, 0, 80, 0, 90, 170, 187] ++ [1, 2, 3])) =
      .ok h [1, 2, 3] :=
  parseV2_exact_consumption 1 1 1 14
    [192, 168, 0, 1, 192, 168, 0, 2, 0, 80, 0, 90, 170, 187] [1, 2, 3]
    (by decide) (by decide) (by decide) (by decide) (by decide) (by decide)

/-! ## C7 -/


/-- C7: the family switch of the v1 decoder, for every stream whose line
read succeeds.  A line whose scanned family token is UNKNOWN decodes
successfully to a header carrying only that family, regardless of whether
the rest of the line scanned; a TCP4 or TCP6 line decodes successfully
exactly when the five-field scan succeeded and both IP strings parse as IP
literals, and otherwise fails with the scan error, an invalid source
address error, or an invalid destination address error; a line with any
other family token fails with the unsupported-protocol error. -/
theorem parseV1_family_cases (s line rest : List Nat)
    (hline : readLine s [] = .ok (line, rest)) :
    ((scanProxy line).fam = tokUNKNOWN → 1 ≤ (scanProxy line).n →
      parseV1 s = .ok (.v1 ⟨tokUNKNOWN, [], [], 0, 0⟩) rest)
  ∧ (∀ si di, ((scanProxy line).fam = tokTCP4 ∨ (scanProxy line).fam = tokTCP6) →
      1 ≤ (scanProxy line).n → (scanProxy line).errMsg = none →
      parseIP (scanProxy line).srcS = some si → parseIP (scanProxy line).dstS = some di →
      parseV1 s = .ok (.v1 ⟨(scanProxy line).fam, si, di, (scanProxy line).srcP,
        (scanProxy line).dstP⟩) rest)
  ∧ (∀ m, ((scanProxy line).fam = tokTCP4 ∨ (scanProxy line).fam = tokTCP6) →
      1 ≤ (scanProxy line).n → (scanProxy line).errMsg = some m →
      parseV1 s = .err line m rest)
  ∧ (((scanProxy line).fam = tokTCP4 ∨ (scanProxy line).fam = tokTCP6) →
      1 ≤ (scanProxy line).n → (scanProxy line).errMsg = none →
      parseIP (scanProxy line).srcS = none →
      parseV1 s = .err line "invalid source address" rest)
  ∧ (∀ si, ((scanProxy line).fam = tokTCP4 ∨ (scanProxy line).fam = tokTCP6) →
      1 ≤ (scanProxy line).n → (scanProxy line).errMsg = none →
      parseIP (scanProxy line).srcS = some si → parseIP (scanProxy line).dstS = none →
      parseV1 s = .err line "invalid destination address" rest)
  ∧ (1 ≤ (scanProxy line).n → (scanProxy line).fam ≠ tokUNKNOWN →
      (scanProxy line).fam ≠ tokTCP4 → (scanProxy line).fam ≠ tokTCP6 →
      parseV1 s = .err line "unsupported INET protocol/family" rest) := by
  have hps : parseV1 s = parseV1Line line rest := by
    simp [parseV1, hline]
  refine ⟨?_, ?_, ?_, ?_, ?_, ?_⟩
  · intro hfam hn
    rw [hps]
    simp [parseV1Line, hfam, show (scanProxy line).n ≠ 0 by omega]
  · intro si di hfam hn herr hsrc hdst
    rw [hps]
    rcases hfam with hfam | hfam <;>
      simp [parseV1Line, hfam, herr, hsrc, hdst, tokTCP4, tokTCP6, tokUNKNOWN]
  · intro m hfam hn herr
    rw [hps]
    rcases hfam with hfam | hfam <;>
      simp [parseV1Line, hfam, herr, show (scanProxy line).n ≠ 0 by omega,
        tokTCP4, tokTCP6, tokUNKNOWN]
  · intro hfam hn herr hsrc
    rw [hps]
    rcases hfam with hfam | hfam <;>
      simp [parseV1Line, hfam, herr, hsrc, tokTCP4, tokTCP6, tokUNKNOWN]
  · intro si hfam hn herr hsrc hdst
    rw [hps]
    rcases hfam with hfam | hfam <;>
      simp [parseV1Line, hfam, herr, hsrc, hdst, tokTCP4, tokTCP6, tokUNKNOWN]
  · intro hn hu h4 h6
    rw [hps]
    simp [parseV1Line, hu, h4, h6, show (scanProxy line).n ≠ 0 by omega]



/-- Bytes of an ASCII string, for concrete wire examples. -/
def strBytes (s : String) : List Nat := s.toList.map Char.toNat

/-- The TCP4 example line of the repository tests. -/
def exV1Line : List Nat := strBytes "PROXY TCP4 192.168.0.1 192.168.0.2 1234 5678\r\n"

/-- Witness for C7: the TCP4 example line followed by a two-byte payload
decodes to the expected header, leaving the payload unconsumed. -/
theorem parseV1_family_cases_witness :
    parseV1 (exV1Line ++ [104, 105]) = .ok (.v1 ⟨tokTCP4,
      [0, 0, 0, 0, 0, 0, 0, 0, 0, 0, 255, 255, 192, 168, 0, 1],
      [0, 0, 0, 0, 0, 0, 0, 0, 0, 0, 255, 255, 192, 168, 0, 2],
      1234, 5678⟩) [104, 105] :=
  (parseV1_family_cases (exV1Line ++ [104, 105]) exV1Line [104, 105] (by rfl)).2.1
    [0, 0, 0, 0, 0, 0, 0, 0, 0, 0, 255, 255, 192, 168, 0, 1]
    [0, 0, 0, 0, 0, 0, 0, 0, 0, 0, 255, 255, 192, 168, 0, 2]
    (Or.inl (by decide)) (by decide) (by decide) (by decide) (by decide)


end ProxyProto
